import Mathlib

/-!
Verification of the chat-log parser and keyword counter of `streamlit_app.py`
(repository Dipanshuz/Mellow).

The embedding models:
* the regex `line_start_pattern` and its use through `re.split` / `re.findall`
  (segmentation of the raw buffer into headers and bodies),
* the capturing regex `details_pattern` applied to each header,
* the two `pd.to_datetime` format attempts (CPython `_strptime` token
  semantics, which pandas `array_strptime` follows),
* the record-assembly loop of `parse_chat`, and
* the keyword counter `analyze_romance`.

Text is modelled as `List Char`.  Python's Unicode `\s` / `str.strip`
whitespace set is modelled by `pySpace`; `\d` and Unicode lowercasing are
modelled on the ASCII range, which covers every construct the source's
format strings and word lists exercise.
-/

namespace Mellow

abbrev Str := List Char

/-- Python whitespace (`\s` in `re`, and the set stripped by `str.strip()`):
space, the ASCII control whitespace, and the Unicode space characters,
including U+202F (narrow no-break space). -/
def pySpace (c : Char) : Bool :=
  decide (c.toNat ∈ [32, 9, 10, 11, 12, 13, 28, 29, 30, 31, 0x85, 0xa0,
    0x1680, 0x2028, 0x2029, 0x202f, 0x205f, 0x3000]) ||
  decide (0x2000 ≤ c.toNat ∧ c.toNat ≤ 0x200a)

/-- `\d` (modelled on the ASCII digits). -/
def isPyDigit (c : Char) : Bool := c.isDigit

/-- The class `[APap]` of the header regexes. -/
def isAmPmChar (c : Char) : Bool := c == 'A' || c == 'P' || c == 'a' || c == 'p'

/-- The literal `\.` of the header regexes. -/
def isDotChar (c : Char) : Bool := c == '.'

/-- The class `[Mm]` of the header regexes. -/
def isMChar (c : Char) : Bool := c == 'M' || c == 'm'

/-- The class `[^:]` (anything but a colon, newlines included). -/
def notColon (c : Char) : Bool := !(c == ':')

/-- U+202F, the narrow no-break space replaced by `parse_chat`. -/
def nnbsp : Char := '\u202F'

/-! ### Regex primitives

Each matcher takes the input and returns `some (eaten, rest)` when the
pattern matches a prefix, with `input = eaten ++ rest`.  The concrete
patterns below are composed of fixed literals, single-character classes,
greedy digit runs each followed by a non-digit element, and greedy optional
single characters whose classes are pairwise disjoint along the pattern, so
the backtracking regex semantics coincide with this deterministic
first-match reading. -/

/-- A literal character. -/
def litP (a : Char) : Str → Option (Str × Str)
  | [] => none
  | c :: r => if c = a then some ([c], r) else none

/-- A single character of a class. -/
def classP (p : Char → Bool) : Str → Option (Str × Str)
  | [] => none
  | c :: r => if p c then some ([c], r) else none

/-- A greedy optional single character of a class (`X?`). -/
def optP (p : Char → Bool) : Str → Option (Str × Str)
  | [] => some ([], [])
  | c :: r => if p c then some ([c], r) else some ([], c :: r)

/-- A greedy digit run `\d{lo,hi}` whose regex continuation starts with a
non-digit, so the run length is forced to be the full digit run. -/
def digitsP (lo hi : Nat) (s : Str) : Option (Str × Str) :=
  let ds := s.takeWhile isPyDigit
  if lo ≤ ds.length ∧ ds.length ≤ hi then some (ds, s.dropWhile isPyDigit)
  else none

/-- Sequencing of two matchers. -/
def pthen (p q : Str → Option (Str × Str)) (s : Str) : Option (Str × Str) :=
  match p s with
  | none => none
  | some (e, r) =>
    match q r with
    | none => none
    | some (e2, r2) => some (e ++ e2, r2)

/-- The run `[^:]+` followed by the literal `:`; the colon is part of the
match (it is not a capture group in `line_start_pattern`). -/
def senderColon (s : Str) : Option (Str × Str) :=
  if s.takeWhile notColon = [] then none
  else
    match s.dropWhile notColon with
    | ':' :: r => some (s.takeWhile notColon ++ [':'], r)
    | _ => none

/-! ### `line_start_pattern`

`\[\d{1,2}/\d{1,2}/\d{2,4},\s\d{1,2}:\d{2}:\d{2}\s?[APap]?\.?[Mm]?\.?\]\s[^:]+:`
-/

/-- `\d{1,2}/\d{1,2}/\d{2,4}` — the date portion of both header regexes. -/
def lsDate : Str → Option (Str × Str) :=
  pthen (digitsP 1 2) (pthen (litP '/')
    (pthen (digitsP 1 2) (pthen (litP '/') (digitsP 2 4))))

/-- `\d{1,2}:\d{2}:\d{2}` — the time-of-day core of both header regexes. -/
def lsTime : Str → Option (Str × Str) :=
  pthen (digitsP 1 2) (pthen (litP ':')
    (pthen (digitsP 2 2) (pthen (litP ':') (digitsP 2 2))))

/-- `\s?[APap]?\.?[Mm]?\.?` — the optional AM/PM marker tail of
`line_start_pattern`. -/
def lsMarker : Str → Option (Str × Str) :=
  pthen (optP pySpace) (pthen (optP isAmPmChar)
    (pthen (optP isDotChar) (pthen (optP isMChar) (optP isDotChar))))

/-- One attempted match of `line_start_pattern` at the head of the input. -/
def matchHeader : Str → Option (Str × Str) :=
  pthen (litP '[')
    (pthen lsDate
      (pthen (litP ',')
        (pthen (classP pySpace)
          (pthen lsTime
            (pthen lsMarker
              (pthen (litP ']')
                (pthen (classP pySpace) senderColon)))))))

/-! ### Scanning: `re.findall` and `re.split`

Python's scanner walks the buffer left to right; at each position it tries
the pattern, records a (never-empty) match and resumes after it, else
advances one character.  The fuel argument is the buffer length, which the
scan never exhausts since every step consumes at least one character. -/

def re_findall_aux : Nat → Str → List Str
  | 0, _ => []
  | _ + 1, [] => []
  | f + 1, c :: cs =>
    match matchHeader (c :: cs) with
    | some (e, r) => e :: re_findall_aux f r
    | none => re_findall_aux f cs

/-- `line_start_pattern.findall(content)`: all non-overlapping matches. -/
def re_findall (s : Str) : List Str := re_findall_aux s.length s

def re_split_aux : Nat → Str → Str → List Str
  | 0, _, acc => [acc.reverse]
  | _ + 1, [], acc => [acc.reverse]
  | f + 1, c :: cs, acc =>
    match matchHeader (c :: cs) with
    | some (_, r) => acc.reverse :: re_split_aux f r []
    | none => re_split_aux f cs (c :: acc)

/-- `line_start_pattern.split(content)`: the segments between matches
(the pattern has no capture groups). -/
def re_split (s : Str) : List Str := re_split_aux s.length s []

/-! ### `details_pattern`

`\[(\d{1,2}/\d{1,2}/\d{2,4}),\s*(\d{1,2}:\d{2}:\d{2}[\s ]?[APap]?\.?[Mm]?\.?)\]\s([^:]+):`
applied with `.match` (anchored prefix match; trailing text is ignored). -/

/-- The class `[\s ]` of the time group (U+202F is already in `\s`). -/
def isSpaceOrNnbsp (c : Char) : Bool := pySpace c || c == nnbsp

/-- The time capture group of `details_pattern`, marker included. -/
def dtTime : Str → Option (Str × Str) :=
  pthen lsTime (pthen (optP isSpaceOrNnbsp) (pthen (optP isAmPmChar)
    (pthen (optP isDotChar) (pthen (optP isMChar) (optP isDotChar)))))

/-- `details_pattern.match(header)`, returning the three capture groups
(date, time, sender) on success. -/
def matchDetails (s : Str) : Option (Str × Str × Str) :=
  match litP '[' s with
  | none => none
  | some (_, r1) =>
    match lsDate r1 with
    | none => none
    | some (date, r2) =>
      match litP ',' r2 with
      | none => none
      | some (_, r3) =>
        match dtTime (r3.dropWhile pySpace) with
        | none => none
        | some (time, r5) =>
          match litP ']' r5 with
          | none => none
          | some (_, r6) =>
            match classP pySpace r6 with
            | none => none
            | some (_, r7) =>
              if r7.takeWhile notColon = [] then none
              else
                match r7.dropWhile notColon with
                | ':' :: _ => some (date, time, r7.takeWhile notColon)
                | _ => none

/-! ### Timestamp normalization: `pd.to_datetime(..., format=..., errors='raise')`

pandas' `array_strptime` is built on CPython `_strptime`'s token regexes,
which the token functions below transcribe:
`%d = (3[01]|[12]\d|0[1-9]|[1-9]| [1-9])`, `%m = %I = (1[0-2]|0[1-9]|[1-9])`,
`%y = (\d\d)`, `%Y = (\d\d\d\d)`, `%H = (2[0-3]|[0-1]\d|\d)`,
`%M = ([0-5]\d|\d)`, `%S = (6[0-1]|[0-5]\d|\d)`, `%p = (am|pm)` ignoring
case, and a literal whitespace in the format matches `\s+`.  The whole
string must be consumed ("unconverted data remains" otherwise).  In every
alternation a two-digit branch precedes the one-digit branch, and the
format element after each token can never accept a digit, so taking the
two-digit branch exactly when it is value-valid reproduces the
backtracking semantics. -/

def digitVal (c : Char) : Nat := c.toNat - 48

def d2val (a b : Char) : Nat := 10 * digitVal a + digitVal b

/-- `%d`: days 01–31 as two digits, 1–9 as one digit, or space-padded. -/
def tok_d : Str → Option (Nat × Str)
  | [] => none
  | [a] => if isPyDigit a ∧ 1 ≤ digitVal a then some (digitVal a, []) else none
  | a :: b :: r =>
    if isPyDigit a ∧ isPyDigit b ∧ 1 ≤ d2val a b ∧ d2val a b ≤ 31 then
      some (d2val a b, r)
    else if isPyDigit a ∧ 1 ≤ digitVal a then some (digitVal a, b :: r)
    else if a = ' ' ∧ isPyDigit b ∧ 1 ≤ digitVal b then some (digitVal b, r)
    else none

/-- `%m` and `%I` (identical regexes): 01–12 as two digits, 1–9 as one. -/
def tok_mI : Str → Option (Nat × Str)
  | [] => none
  | [a] => if isPyDigit a ∧ 1 ≤ digitVal a then some (digitVal a, []) else none
  | a :: b :: r =>
    if isPyDigit a ∧ isPyDigit b ∧ 1 ≤ d2val a b ∧ d2val a b ≤ 12 then
      some (d2val a b, r)
    else if isPyDigit a ∧ 1 ≤ digitVal a then some (digitVal a, b :: r)
    else none

/-- `%H`/`%M`/`%S` shape: a two-digit value up to `maxv`, else one digit. -/
def tok2 (maxv : Nat) : Str → Option (Nat × Str)
  | [] => none
  | [a] => if isPyDigit a then some (digitVal a, []) else none
  | a :: b :: r =>
    if isPyDigit a ∧ isPyDigit b ∧ d2val a b ≤ maxv then some (d2val a b, r)
    else if isPyDigit a then some (digitVal a, b :: r)
    else none

/-- `%y`: exactly two digits. -/
def tok_y : Str → Option (Nat × Str)
  | a :: b :: r => if isPyDigit a ∧ isPyDigit b then some (d2val a b, r) else none
  | _ => none

/-- `%Y`: exactly four digits. -/
def tok_Y : Str → Option (Nat × Str)
  | a :: b :: c :: d :: r =>
    if isPyDigit a ∧ isPyDigit b ∧ isPyDigit c ∧ isPyDigit d then
      some (100 * d2val a b + d2val c d, r)
    else none
  | _ => none

/-- `%p`: `am` or `pm`, case-insensitive; `true` means PM. -/
def tok_p : Str → Option (Bool × Str)
  | a :: m :: r =>
    if (a = 'a' ∨ a = 'A') ∧ (m = 'm' ∨ m = 'M') then some (false, r)
    else if (a = 'p' ∨ a = 'P') ∧ (m = 'm' ∨ m = 'M') then some (true, r)
    else none
  | _ => none

/-- A format-string literal. -/
def litTok (c : Char) : Str → Option Str
  | [] => none
  | x :: r => if x = c then some r else none

/-- A literal whitespace in the format: `\s+` on the input. -/
def wsPlus (s : Str) : Option Str :=
  if s.takeWhile pySpace = [] then none else some (s.dropWhile pySpace)

def isLeap (y : Nat) : Bool :=
  y % 4 = 0 && (!(y % 100 = 0) || y % 400 = 0)

def daysInMonth (y m : Nat) : Nat :=
  if m = 2 then (if isLeap y then 29 else 28)
  else if m = 4 ∨ m = 6 ∨ m = 9 ∨ m = 11 then 30
  else 31

/-- A calendar date-time with second precision, the payload of the pandas
timestamp produced on a successful parse. -/
structure Timestamp where
  year : Nat
  month : Nat
  day : Nat
  hour : Nat
  minute : Nat
  second : Nat
deriving DecidableEq

/-- Day-of-month validation performed when the parsed fields are turned
into a concrete date ("day is out of range for month" otherwise). -/
def mkValid (y m d hh mi se : Nat) : Option Timestamp :=
  if 1 ≤ d ∧ d ≤ daysInMonth y m then some ⟨y, m, d, hh, mi, se⟩ else none

/-- CPython's `%y` century rule: 00–68 means 20YY, 69–99 means 19YY. -/
def centuryOf (y2 : Nat) : Nat := if y2 ≤ 68 then 2000 + y2 else 1900 + y2

/-- The 12-hour → 24-hour conversion driven by `%p`. -/
def hour12to24 (pm : Bool) (ih : Nat) : Nat :=
  if pm then (if ih = 12 then 12 else ih + 12)
  else (if ih = 12 then 0 else ih)

/-- The 12-hour, two-digit-year format family
`%d/%m/%y[,] %I:%M:%S %p`; `comma` selects whether a literal comma follows
the year. -/
def strptime12f (comma : Bool) (s : Str) : Option Timestamp := do
  let (d, r1) ← tok_d s
  let r2 ← litTok '/' r1
  let (m, r3) ← tok_mI r2
  let r4 ← litTok '/' r3
  let (y2, r5) ← tok_y r4
  let r5b ← if comma then litTok ',' r5 else some r5
  let r6 ← wsPlus r5b
  let (ih, r7) ← tok_mI r6
  let r8 ← litTok ':' r7
  let (mi, r9) ← tok2 59 r8
  let r10 ← litTok ':' r9
  let (se, r11) ← tok2 61 r10
  let r12 ← wsPlus r11
  let (pm, r13) ← tok_p r12
  if r13 = [] then mkValid (centuryOf y2) m d (hour12to24 pm ih) mi se
  else none

/-- The 24-hour, four-digit-year format family `%d/%m/%Y[,] %H:%M:%S`. -/
def strptime24f (comma : Bool) (s : Str) : Option Timestamp := do
  let (d, r1) ← tok_d s
  let r2 ← litTok '/' r1
  let (m, r3) ← tok_mI r2
  let r4 ← litTok '/' r3
  let (y, r5) ← tok_Y r4
  let r5b ← if comma then litTok ',' r5 else some r5
  let r6 ← wsPlus r5b
  let (hh, r7) ← tok2 23 r6
  let r8 ← litTok ':' r7
  let (mi, r9) ← tok2 59 r8
  let r10 ← litTok ':' r9
  let (se, r11) ← tok2 61 r10
  if r11 = [] then mkValid y m d hh mi se
  else none

/-- `pd.to_datetime(timestamp_str, format='%d/%m/%y %I:%M:%S %p')` —
the first attempt of `parse_chat` (no comma). -/
def strptime12 : Str → Option Timestamp := strptime12f false

/-- `pd.to_datetime(timestamp_str, format='%d/%m/%Y %H:%M:%S')` —
the fallback attempt of `parse_chat` (no comma). -/
def strptime24 : Str → Option Timestamp := strptime24f false

/-- The try/except chain of `parse_chat`: the 12-hour no-comma format,
then the 24-hour no-comma format; a second failure means `continue`. -/
def try_formats (s : Str) : Option Timestamp :=
  match strptime12 s with
  | some t => some t
  | none => strptime24 s

/-- Modelled from the spec (§4.2 step 3): the four-format attempt order the
specification prescribes — (a) 12-hour with comma and AM/PM marker,
(b) 24-hour with comma, then (c) the same two without the comma,
first-match-wins.  Stated for comparison with `try_formats`, the order the
code actually implements. -/
def claimed_try_formats (s : Str) : Option Timestamp :=
  match strptime12f true s with
  | some t => some t
  | none =>
    match strptime24f true s with
    | some t => some t
    | none =>
      match strptime12f false s with
      | some t => some t
      | none => strptime24f false s

/-! ### Record assembly: the loop of `parse_chat` -/

/-- Python `str.strip()`. -/
def pstrip (s : Str) : Str :=
  ((s.dropWhile pySpace).reverse.dropWhile pySpace).reverse

/-- `time.replace(' ', ' ').strip()`. -/
def cleanTime (t : Str) : Str :=
  pstrip (t.map (fun c => if c = nnbsp then ' ' else c))

/-- One parsed message: the row `[timestamp, sender.strip(), message_body]`
appended to `chat_data`. -/
structure ChatMessage where
  timestamp : Timestamp
  sender : Str
  body : Str
deriving DecidableEq

/-- One iteration of the loop body of `parse_chat` on a (header, body)
pair: strip the body, re-match the header with `details_pattern`, clean the
time, join date and time with a space (no comma), try the two formats, and
on success build the row; `none` models both the `continue` on an
unparseable timestamp and a failed `details_pattern` match. -/
def process_pair (header body : Str) : Option ChatMessage :=
  let message_body := pstrip body
  match matchDetails header with
  | none => none
  | some (date, time, sender) =>
    let key := date ++ ' ' :: cleanTime time
    match try_formats key with
    | none => none
    | some ts => some ⟨ts, pstrip sender, message_body⟩

/-- The loop `for i in range(len(messages))`, pairing the i-th body with
the i-th header (`split_findall_counts` shows the two lists always have
equal length, so the index pairing is total). -/
def build_chat_data : List Str → List Str → List ChatMessage
  | h :: hs, b :: bs =>
    (match process_pair h b with
     | some msg => msg :: build_chat_data hs bs
     | none => build_chat_data hs bs)
  | _, _ => []

/-- `parse_chat`, reduced to the message rows of the returned DataFrame:
segment the buffer, drop the pre-header segment, return empty when nothing
matched, else run the loop.  (`df.dropna` removes nothing: rows are only
appended with a successfully parsed timestamp.) -/
def parse_chat (content : Str) : List ChatMessage :=
  let messages := (re_split content).drop 1
  let headers := re_findall content
  if messages = [] ∨ headers = [] then []
  else build_chat_data headers messages

/-- The number of candidate headers whose timestamp normalization fails.
This quantity is computed here for specification purposes only: the source
never counts it, which is what claim C8 is about. -/
def failed_header_count (content : Str) : Nat :=
  (re_findall content).countP (fun h => (process_pair h []).isNone)

/-! ### The keyword counter `analyze_romance` -/

/-- Python `str.lower()`, modelled on the ASCII range. -/
def lowerStr (s : Str) : Str := s.map Char.toLower

/-- Needle-at-the-front test, the base step of substring search. -/
def strStarts : Str → Str → Bool
  | [], _ => true
  | _ :: _, [] => false
  | a :: n, b :: h => if a = b then strStarts n h else false

/-- Python's substring operator `needle in hay`. -/
def substr_in (n : Str) : Str → Bool
  | [] => strStarts n []
  | c :: t => strStarts n (c :: t) || substr_in n t

/-- The keys of the dict `{word: 0 for word in romantic_words}`:
first occurrences, in encounter order. -/
def dict_keys_aux : List Str → List Str → List Str
  | _, [] => []
  | seen, w :: ws =>
    if w ∈ seen then dict_keys_aux seen ws
    else w :: dict_keys_aux (w :: seen) ws

def dict_keys (ws : List Str) : List Str := dict_keys_aux [] ws

/-- `word_counts[word] += 1` on the association-list model of the dict. -/
def bump (d : List (Str × Nat)) (w : Str) : List (Str × Nat) :=
  d.map (fun p => if p.1 = w then (p.1, p.2 + 1) else p)

/-- The inner loop `for word in romantic_words` for one message. -/
def count_step (ws : List Str) (d : List (Str × Nat)) (m : Str) :
    List (Str × Nat) :=
  ws.foldl (fun acc w => if substr_in w (lowerStr m) then bump acc w else acc) d

/-- The dict `word_counts` after both loops of `analyze_romance`:
note the message is lowercased but the word is not. -/
def word_counts (msgs ws : List Str) : List (Str × Nat) :=
  msgs.foldl (count_step ws) ((dict_keys ws).map (fun w => (w, 0)))

/-- `analyze_romance`, reduced to the rows of the returned DataFrame:
the dict items, keeping only positive counts, sorted by count descending.
(pandas' default `sort_values` leaves the order of tied counts
unspecified; a stable insertion sort stands in for it, and no theorem
below depends on the tie order.) -/
def analyze_romance (msgs ws : List Str) : List (Str × Nat) :=
  List.insertionSort (fun p q => q.2 ≤ p.2)
    ((word_counts msgs ws).filter (fun p => decide (0 < p.2)))

/-- Modelled from the spec (§6): the number of messages containing the
keyword at least once as a case-insensitive substring — the count the
specification says the counter returns.  Stated for comparison with
`analyze_romance`, which lowercases only the message. -/
def ci_contains_count (kw : Str) (msgs : List Str) : Nat :=
  msgs.countP (fun m => substr_in (lowerStr kw) (lowerStr m))

/-- A matcher consumes exactly the prefix it reports as eaten. -/
def Consumes (p : Str → Option (Str × Str)) : Prop :=
  ∀ s e r, p s = some (e, r) → s = e ++ r

/-! ## Structural lemmas about the matchers -/

theorem pthen_some_dest {p q : Str → Option (Str × Str)} {s e r : Str}
    (h : pthen p q s = some (e, r)) :
    ∃ e1 r1 e2, p s = some (e1, r1) ∧ q r1 = some (e2, r) ∧ e = e1 ++ e2 := by
  unfold pthen at h
  cases hp : p s with
  | none => simp only [hp] at h; cases h
  | some pr =>
    obtain ⟨e1, r1⟩ := pr
    simp only [hp] at h
    cases hq : q r1 with
    | none => simp only [hq] at h; cases h
    | some qr =>
      obtain ⟨e2, r2⟩ := qr
      simp only [hq, Option.some.injEq, Prod.mk.injEq] at h
      exact ⟨e1, r1, e2, rfl, by rw [hq, h.2], h.1.symm⟩

theorem litP_some_dest {a : Char} {s e r : Str} (h : litP a s = some (e, r)) :
    e = [a] ∧ s = a :: r := by
  cases s with
  | nil => exact absurd h (by simp [litP])
  | cons c t =>
    simp only [litP] at h
    split at h
    · simp only [Option.some.injEq, Prod.mk.injEq] at h
      constructor
      · rw [← h.1]; simp_all
      · simp_all
    · exact absurd h (by simp)

theorem consumes_litP (a : Char) : Consumes (litP a) := by
  intro s e r h
  obtain ⟨he, hs⟩ := litP_some_dest h
  rw [he, hs]; rfl

theorem consumes_classP (p : Char → Bool) : Consumes (classP p) := by
  intro s e r h
  cases s with
  | nil => exact absurd h (by simp [classP])
  | cons c t =>
    simp only [classP] at h
    split at h
    · simp only [Option.some.injEq, Prod.mk.injEq] at h
      rw [← h.1, ← h.2]; rfl
    · exact absurd h (by simp)

theorem consumes_optP (p : Char → Bool) : Consumes (optP p) := by
  intro s e r h
  cases s with
  | nil =>
    simp only [optP, Option.some.injEq, Prod.mk.injEq] at h
    rw [← h.1, ← h.2]; rfl
  | cons c t =>
    simp only [optP] at h
    split at h
    · simp only [Option.some.injEq, Prod.mk.injEq] at h
      rw [← h.1, ← h.2]; rfl
    · simp only [Option.some.injEq, Prod.mk.injEq] at h
      rw [← h.1, ← h.2]; rfl

theorem consumes_digitsP (lo hi : Nat) : Consumes (digitsP lo hi) := by
  intro s e r h
  simp only [digitsP] at h
  split at h
  · simp only [Option.some.injEq, Prod.mk.injEq] at h
    rw [← h.1, ← h.2, List.takeWhile_append_dropWhile]
  · exact absurd h (by simp)

theorem consumes_senderColon : Consumes senderColon := by
  intro s e r h
  unfold senderColon at h
  split at h
  · cases h
  · split at h
    case _ r' heq =>
      simp only [Option.some.injEq, Prod.mk.injEq] at h
      rw [← h.1, ← h.2, List.append_assoc]
      calc s = s.takeWhile notColon ++ s.dropWhile notColon := by
              rw [List.takeWhile_append_dropWhile]
        _ = s.takeWhile notColon ++ ([':'] ++ r') := by rw [heq]; rfl
    case _ => cases h

theorem consumes_pthen {p q : Str → Option (Str × Str)}
    (hp : Consumes p) (hq : Consumes q) : Consumes (pthen p q) := by
  intro s e r h
  obtain ⟨e1, r1, e2, h1, h2, he⟩ := pthen_some_dest h
  rw [he, hp s e1 r1 h1, hq r1 e2 r h2, List.append_assoc]

theorem consumes_lsDate : Consumes lsDate :=
  consumes_pthen (consumes_digitsP 1 2) (consumes_pthen (consumes_litP '/')
    (consumes_pthen (consumes_digitsP 1 2)
      (consumes_pthen (consumes_litP '/') (consumes_digitsP 2 4))))

theorem consumes_lsTime : Consumes lsTime :=
  consumes_pthen (consumes_digitsP 1 2) (consumes_pthen (consumes_litP ':')
    (consumes_pthen (consumes_digitsP 2 2)
      (consumes_pthen (consumes_litP ':') (consumes_digitsP 2 2))))

theorem consumes_lsMarker : Consumes lsMarker :=
  consumes_pthen (consumes_optP pySpace) (consumes_pthen (consumes_optP isAmPmChar)
    (consumes_pthen (consumes_optP isDotChar)
      (consumes_pthen (consumes_optP isMChar) (consumes_optP isDotChar))))

theorem consumes_matchHeader : Consumes matchHeader :=
  consumes_pthen (consumes_litP '[')
    (consumes_pthen consumes_lsDate
      (consumes_pthen (consumes_litP ',')
        (consumes_pthen (consumes_classP pySpace)
          (consumes_pthen consumes_lsTime
            (consumes_pthen consumes_lsMarker
              (consumes_pthen (consumes_litP ']')
                (consumes_pthen (consumes_classP pySpace)
                  consumes_senderColon)))))))

theorem matchHeader_eaten_cons {s e r : Str} (h : matchHeader s = some (e, r)) :
    ∃ t, e = '[' :: t := by
  obtain ⟨e1, r1, e2, h1, _, he⟩ := pthen_some_dest h
  obtain ⟨he1, _⟩ := litP_some_dest h1
  exact ⟨e2, by rw [he, he1]; rfl⟩

theorem matchHeader_rest_shorter {s e r : Str}
    (h : matchHeader s = some (e, r)) : r.length < s.length := by
  have hs := consumes_matchHeader s e r h
  obtain ⟨t, he⟩ := matchHeader_eaten_cons h
  rw [hs, he]
  simp only [List.length_append, List.length_cons]
  omega

/-- Every recognized header contains the comma the pattern demands between
the date and the time. -/
theorem matchHeader_has_comma {s e r : Str}
    (h : matchHeader s = some (e, r)) : ',' ∈ e := by
  obtain ⟨e1, r1, e2, _, h2, he⟩ := pthen_some_dest h
  obtain ⟨e3, r3, e4, _, h4, he2⟩ := pthen_some_dest h2
  obtain ⟨e5, r5, e6, h5, _, he4⟩ := pthen_some_dest h4
  obtain ⟨he5, _⟩ := litP_some_dest h5
  rw [he, he2, he4, he5]
  simp

/-! ## Segmentation counts -/

theorem split_aux_counts (f : Nat) :
    ∀ s acc, (re_split_aux f s acc).length = (re_findall_aux f s).length + 1 := by
  induction f with
  | zero => intro s acc; rfl
  | succ f ih =>
    intro s acc
    cases s with
    | nil => rfl
    | cons c cs =>
      simp only [re_split_aux, re_findall_aux]
      cases h : matchHeader (c :: cs) with
      | none => simpa using ih cs (c :: acc)
      | some pr =>
        obtain ⟨e, r⟩ := pr
        simp [ih]

theorem split_drop_length (content : Str) :
    ((re_split content).drop 1).length = (re_findall content).length := by
  have h := split_aux_counts content.length content []
  simp only [re_split, re_findall]
  rw [List.length_drop, h]
  omega

/-! ## The structure of `parse_chat` -/

theorem build_eq_filterMap :
    ∀ hs bs : List Str, build_chat_data hs bs =
      (hs.zip bs).filterMap (fun p => process_pair p.1 p.2) := by
  intro hs
  induction hs with
  | nil => intro bs; rfl
  | cons h hs ih =>
    intro bs
    cases bs with
    | nil => rfl
    | cons b bs =>
      simp only [build_chat_data, List.zip_cons_cons, List.filterMap_cons]
      cases hp : process_pair h b <;> simp [ih]

/-- `parse_chat` is the in-encounter-order image of the (header, body)
pairs whose normalization succeeds; pairs that fail contribute nothing. -/
theorem parse_eq_filterMap (content : Str) :
    parse_chat content =
      ((re_findall content).zip ((re_split content).drop 1)).filterMap
        (fun p => process_pair p.1 p.2) := by
  simp only [parse_chat]
  split
  case isTrue h =>
    rcases h with h | h
    · rw [h, List.zip_nil_right]; rfl
    · rw [h, List.zip_nil_left]; rfl
  case isFalse h =>
    exact build_eq_filterMap _ _

/-- Whether a (header, body) pair produces a record depends only on the
header: the body is stripped and stored but never tested. -/
theorem process_pair_isSome (h b : Str) :
    (process_pair h b).isSome = (process_pair h []).isSome := by
  unfold process_pair
  cases hd : matchDetails h with
  | none => rfl
  | some g =>
    obtain ⟨date, g2⟩ := g
    obtain ⟨time, sender⟩ := g2
    cases ht : try_formats (date ++ ' ' :: cleanTime time) <;> simp [ht]

theorem process_pair_timestamp {h b : Str} {msg : ChatMessage}
    (hp : process_pair h b = some msg) :
    ∃ key, try_formats key = some msg.timestamp := by
  unfold process_pair at hp
  cases hd : matchDetails h with
  | none => simp only [hd] at hp; cases hp
  | some g =>
    obtain ⟨date, g2⟩ := g
    obtain ⟨time, sender⟩ := g2
    simp only [hd] at hp
    cases ht : try_formats (date ++ ' ' :: cleanTime time) with
    | none => simp only [ht] at hp; cases hp
    | some ts =>
      simp only [ht, Option.some.injEq] at hp
      exact ⟨date ++ ' ' :: cleanTime time, by rw [ht, ← hp]⟩

/-! ## Counting lemmas -/

theorem zip_filterMap_length :
    ∀ hs bs : List Str, hs.length = bs.length →
      ((hs.zip bs).filterMap (fun p => process_pair p.1 p.2)).length =
        hs.countP (fun h => (process_pair h []).isSome) := by
  intro hs
  induction hs with
  | nil => intro bs _; rfl
  | cons x hs ih =>
    intro bs hlen
    cases bs with
    | nil => simp at hlen
    | cons b bs =>
      have hlen' : hs.length = bs.length := by simpa using hlen
      have hb := process_pair_isSome x b
      simp only [List.zip_cons_cons, List.filterMap_cons, List.countP_cons]
      cases hp : process_pair x b with
      | none =>
        have hx : ((process_pair x []).isSome = false) := by rw [← hb, hp]; rfl
        simp [hx, ih bs hlen']
      | some msg =>
        have hx : ((process_pair x []).isSome = true) := by rw [← hb, hp]; rfl
        simp [hx, ih bs hlen']

/-! ## The claims -/

/-- C10: splitting the buffer on `line_start_pattern` and dropping the
segment before the first header leaves exactly as many body segments as
`findall` finds header matches, so pairing body i with header i by index
never goes out of range. -/
theorem claim_c10_segment_counts (content : Str) :
    ((re_split content).drop 1).length = (re_findall content).length :=
  split_drop_length content

/-- C1: when every found header normalizes successfully, `parse_chat`
returns exactly one `ChatMessage` per header match, and the records are the
in-encounter-order images of the (header, body) pairs. -/
theorem claim_c1_parse_count (content : Str)
    (hall : ∀ hd ∈ re_findall content, (process_pair hd []).isSome = true) :
    (parse_chat content).length = (re_findall content).length ∧
    parse_chat content =
      ((re_findall content).zip ((re_split content).drop 1)).filterMap
        (fun p => process_pair p.1 p.2) := by
  refine ⟨?_, parse_eq_filterMap content⟩
  rw [parse_eq_filterMap content,
    zip_filterMap_length _ _ (split_drop_length content).symm]
  exact List.countP_eq_length.2 hall

theorem claim_c1_parse_count_witness :
    (∀ hd ∈ re_findall
        (("[1/2/24, 9:05:00 PM] Alice: hello\nworld\n[1/2/24, 9:06:00 PM] Bob: hi").toList),
      (process_pair hd []).isSome = true) ∧
    (parse_chat
        (("[1/2/24, 9:05:00 PM] Alice: hello\nworld\n[1/2/24, 9:06:00 PM] Bob: hi").toList)).length =
      (re_findall
        (("[1/2/24, 9:05:00 PM] Alice: hello\nworld\n[1/2/24, 9:06:00 PM] Bob: hi").toList)).length :=
  ⟨by decide, (claim_c1_parse_count _ (by decide)).1⟩

/-- C2: the concrete multi-line scenario: two messages, the first body
keeping its embedded newline verbatim after the outer strip, with
timestamps 2024-02-01 21:05:00 and 21:06:00 (day-first parsing). -/
theorem claim_c2_multiline :
    parse_chat
        (("[1/2/24, 9:05:00 PM] Alice: hello\nworld\n[1/2/24, 9:06:00 PM] Bob: hi").toList) =
      [⟨⟨2024, 2, 1, 21, 5, 0⟩, ("Alice").toList, ("hello\nworld").toList⟩,
       ⟨⟨2024, 2, 1, 21, 6, 0⟩, ("Bob").toList, ("hi").toList⟩] := by
  decide

/-- C3 counterexample: the spec's attempt chain begins with two
comma-bearing formats, so it accepts the comma-separated key
"1/2/24, 9:05:00 PM"; the code's chain (`try_formats`) attempts only the
two no-comma formats and rejects that key.  Hence the attempted format
sequence is not the one the claim states. -/
theorem claim_c3_counterexample :
    try_formats (("1/2/24, 9:05:00 PM").toList) = none ∧
    claimed_try_formats (("1/2/24, 9:05:00 PM").toList) =
      some ⟨2024, 2, 1, 21, 5, 0⟩ := by
  decide

/-- C3 amended: the normalization key is tried against exactly two
formats, both without a comma — first the 12-hour `%d/%m/%y %I:%M:%S %p`,
then the 24-hour `%d/%m/%Y %H:%M:%S` — with the first success winning;
comma-bearing keys parse under neither. -/
theorem claim_c3_attempt_order (key : Str) :
    (∀ t, strptime12 key = some t → try_formats key = some t) ∧
    (strptime12 key = none → try_formats key = strptime24 key) ∧
    try_formats (("1/2/24 9:05:00 PM").toList) = some ⟨2024, 2, 1, 21, 5, 0⟩ ∧
    try_formats (("1/2/2024 21:05:00").toList) = some ⟨2024, 2, 1, 21, 5, 0⟩ := by
  refine ⟨?_, ?_, by decide, by decide⟩
  · intro t ht; unfold try_formats; rw [ht]
  · intro hn; unfold try_formats; rw [hn]

theorem claim_c3_attempt_order_witness :
    strptime12 (("1/2/24 9:05:00 PM").toList) = some ⟨2024, 2, 1, 21, 5, 0⟩ ∧
    try_formats (("1/2/24 9:05:00 PM").toList) = some ⟨2024, 2, 1, 21, 5, 0⟩ :=
  ⟨by decide,
    (claim_c3_attempt_order (("1/2/24 9:05:00 PM").toList)).1 _ (by decide)⟩

/-- C4 counterexample: a header whose date and time are separated by a
space only (no comma) is not recognized at all — `findall` finds nothing
and the parse yields no message — refuting the claimed bare-space
fallback. -/
theorem claim_c4_counterexample :
    re_findall (("[1/2/24 9:05:00 PM] Alice: hi").toList) = [] ∧
    parse_chat (("[1/2/24 9:05:00 PM] Alice: hi").toList) = [] := by
  decide

/-- C4 amended: header recognition requires the comma (followed by one
whitespace character) between the date and the time: every recognized
header contains a comma.  No bare-space fallback exists. -/
theorem claim_c4_comma_required {s e r : Str}
    (h : matchHeader s = some (e, r)) : ',' ∈ e :=
  matchHeader_has_comma h

theorem claim_c4_comma_required_witness :
    matchHeader (("[1/2/24, 9:05:00 PM] Alice: hi").toList) =
      some ((("[1/2/24, 9:05:00 PM] Alice:").toList), ((" hi").toList)) ∧
    ',' ∈ (("[1/2/24, 9:05:00 PM] Alice:").toList) :=
  ⟨by decide,
    @claim_c4_comma_required (("[1/2/24, 9:05:00 PM] Alice: hi").toList)
      (("[1/2/24, 9:05:00 PM] Alice:").toList) ((" hi").toList) (by decide)⟩

/-- C5: a (header, body) pair whose normalization fails is dropped
locally: the parse result is exactly the successful images of the pairs
before it followed by those after it, so surrounding valid messages are
retained and no placeholder record is stored. -/
theorem claim_c5_bad_record_dropped (content : Str)
    (pre post : List (Str × Str)) (hd bd : Str)
    (hsplit : (re_findall content).zip ((re_split content).drop 1) =
      pre ++ (hd, bd) :: post)
    (hbad : process_pair hd bd = none) :
    parse_chat content =
      pre.filterMap (fun p => process_pair p.1 p.2) ++
      post.filterMap (fun p => process_pair p.1 p.2) := by
  rw [parse_eq_filterMap content, hsplit]
  simp [List.filterMap_append, List.filterMap_cons, hbad]

theorem claim_c5_bad_record_dropped_witness :
    parse_chat
        (("[1/2/24, 9:05:00 PM] Alice: hi\n[13/13/24, 9:06:00 PM] Bob: bad\n[1/2/24, 9:07:00 PM] Alice: yo").toList) =
      ([((("[1/2/24, 9:05:00 PM] Alice:").toList, (" hi\n").toList) : Str × Str)]).filterMap
          (fun p => process_pair p.1 p.2) ++
        ([((("[1/2/24, 9:07:00 PM] Alice:").toList, (" yo").toList) : Str × Str)]).filterMap
          (fun p => process_pair p.1 p.2) :=
  claim_c5_bad_record_dropped _
    [((("[1/2/24, 9:05:00 PM] Alice:").toList, (" hi\n").toList) : Str × Str)]
    [((("[1/2/24, 9:07:00 PM] Alice:").toList, (" yo").toList) : Str × Str)]
    (("[13/13/24, 9:06:00 PM] Bob:").toList) ((" bad\n").toList)
    (by decide) (by decide)

/-- C6 counterexample: a header whose sender field is whitespace-only
(which `[^:]+` accepts) produces a message whose sender is empty after
trimming, refuting the sender-never-empty half of the claim. -/
theorem claim_c6_counterexample :
    parse_chat (("[1/2/24, 9:05:00 PM]   : hi").toList) =
      [⟨⟨2024, 2, 1, 21, 5, 0⟩, [], ("hi").toList⟩] := by
  decide

/-- C6 amended: the timestamp half of the invariant holds: every message
`parse_chat` produces carries a timestamp obtained from a successful
format attempt — never a null or sentinel value.  (The sender half fails:
a whitespace-only sender field is stored as the empty string.) -/
theorem claim_c6_timestamp_from_parse {content : Str} {msg : ChatMessage}
    (hm : msg ∈ parse_chat content) :
    ∃ key, try_formats key = some msg.timestamp := by
  rw [parse_eq_filterMap content] at hm
  obtain ⟨p, _, hsome⟩ := List.mem_filterMap.1 hm
  exact process_pair_timestamp hsome

theorem claim_c6_timestamp_from_parse_witness :
    (⟨⟨2024, 2, 1, 21, 5, 0⟩, ("Alice").toList, ("hi").toList⟩ : ChatMessage) ∈
      parse_chat (("[1/2/24, 9:05:00 PM] Alice: hi").toList) ∧
    ∃ key, try_formats key =
      some (⟨2024, 2, 1, 21, 5, 0⟩ : Timestamp) :=
  ⟨by decide,
    @claim_c6_timestamp_from_parse (("[1/2/24, 9:05:00 PM] Alice: hi").toList)
      ⟨⟨2024, 2, 1, 21, 5, 0⟩, ("Alice").toList, ("hi").toList⟩ (by decide)⟩

/-- C7 counterexample: a two-digit year 99 parsed by the 12-hour branch
yields year 1999, not 2000 + 99 = 2099: the century rule is the strptime
pivot, not a uniform 2000 + YY. -/
theorem claim_c7_counterexample :
    parse_chat (("[1/2/99, 9:05:00 PM] Alice: hi").toList) =
      [⟨⟨1999, 2, 1, 21, 5, 0⟩, ("Alice").toList, ("hi").toList⟩] := by
  decide

/-- C7 amended: in the 12-hour branch a two-digit year YY is interpreted
as 2000 + YY when YY ≤ 68 and as 1900 + YY when 69 ≤ YY ≤ 99 (checked for
all one hundred two-digit years); and the 24-hour branch (`%Y`) accepts
only four-digit years, so a two-digit year fails it. -/
theorem claim_c7_century_rule :
    (∀ a b : Fin 10,
      strptime12 ((("1/2/").toList ++
          [Char.ofNat (48 + a.val), Char.ofNat (48 + b.val)]) ++
          ((" 9:05:00 PM").toList)) =
        some ⟨(if 10 * a.val + b.val ≤ 68 then 2000 + (10 * a.val + b.val)
               else 1900 + (10 * a.val + b.val)), 2, 1, 21, 5, 0⟩) ∧
    strptime24 (("1/2/24 21:05:00").toList) = none := by
  constructor
  · decide
  · decide

/-- C8 counterexample: appending a header that fails normalization leaves
the value returned by `parse_chat` unchanged, while the number of failed
candidate headers differs — so the returned value contains no count or
flag of normalization failures. -/
theorem claim_c8_counterexample :
    parse_chat (("[1/2/24, 9:05:00 PM] Alice: hi").toList) =
      parse_chat
        (("[1/2/24, 9:05:00 PM] Alice: hi\n[13/13/24, 9:06:00 PM] Bob: yo").toList) ∧
    failed_header_count (("[1/2/24, 9:05:00 PM] Alice: hi").toList) = 0 ∧
    failed_header_count
      (("[1/2/24, 9:05:00 PM] Alice: hi\n[13/13/24, 9:06:00 PM] Bob: yo").toList) = 1 := by
  decide

/-- C8 amended: the returned value is only the ordered message sequence;
headers that fail normalization are silently dropped and not reported.
The accounting identity: messages returned plus failed headers equals
total header matches. -/
theorem claim_c8_silent_accounting (content : Str) :
    (parse_chat content).length + failed_header_count content =
      (re_findall content).length := by
  rw [parse_eq_filterMap content,
    zip_filterMap_length _ _ (split_drop_length content).symm]
  unfold failed_header_count
  have hc : (re_findall content).countP (fun h => (process_pair h []).isNone) =
      (re_findall content).countP
        (fun h => decide ¬((process_pair h []).isSome = true)) :=
    List.countP_congr (fun a _ => by cases process_pair a [] <;> rfl)
  rw [hc]
  exact (List.length_eq_countP_add_countP _ _).symm

/-! ## The keyword counter: closed forms -/

theorem count_step_closed (m : Str) :
    ∀ (ws : List Str) (d : List (Str × Nat)),
      count_step ws d m = d.map
        (fun p => (p.1, p.2 +
          (if substr_in p.1 (lowerStr m) then ws.count p.1 else 0))) := by
  intro ws
  induction ws with
  | nil =>
    intro d
    simp [count_step]
  | cons w ws ih =>
    intro d
    show count_step ws (if substr_in w (lowerStr m) then bump d w else d) m = _
    rw [ih]
    by_cases hm : substr_in w (lowerStr m) = true
    · rw [if_pos hm]
      unfold bump
      rw [List.map_map]
      apply List.map_congr_left
      intro p _
      by_cases hpw : p.1 = w
      · simp only [Function.comp_apply, if_pos hpw, hpw, hm, if_true]
        rw [List.count_cons_self]
        ring_nf
      · simp only [Function.comp_apply, if_neg hpw]
        rw [List.count_cons_of_ne hpw]
    · rw [if_neg hm]
      apply List.map_congr_left
      intro p _
      by_cases hpw : p.1 = w
      · have hm' : substr_in p.1 (lowerStr m) = false := by
          rw [hpw]; exact Bool.eq_false_iff.2 hm
        simp [hm']
      · rw [List.count_cons_of_ne hpw]

theorem foldl_count_step_closed (ws : List Str) :
    ∀ (msgs : List Str) (d : List (Str × Nat)),
      msgs.foldl (count_step ws) d = d.map
        (fun p => (p.1, p.2 + ws.count p.1 *
          msgs.countP (fun m => substr_in p.1 (lowerStr m)))) := by
  intro msgs
  induction msgs with
  | nil => intro d; simp
  | cons m msgs ih =>
    intro d
    rw [List.foldl_cons, ih, count_step_closed m ws d, List.map_map]
    apply List.map_congr_left
    intro p _
    simp only [Function.comp_apply, List.countP_cons]
    by_cases hm : substr_in p.1 (lowerStr m) = true
    · simp only [hm, if_true]
      congr 1
      ring
    · simp [hm]

theorem word_counts_closed (msgs ws : List Str) :
    word_counts msgs ws = (dict_keys ws).map
      (fun w => (w, ws.count w *
        msgs.countP (fun m => substr_in w (lowerStr m)))) := by
  unfold word_counts
  rw [foldl_count_step_closed ws msgs, List.map_map]
  apply List.map_congr_left
  intro w _
  simp

theorem dict_keys_aux_of_nodup :
    ∀ (ws seen : List Str), ws.Nodup → (∀ w ∈ ws, w ∉ seen) →
      dict_keys_aux seen ws = ws := by
  intro ws
  induction ws with
  | nil => intro seen _ _; rfl
  | cons w ws ih =>
    intro seen hnd hdisj
    simp only [dict_keys_aux]
    rw [if_neg (hdisj w (List.mem_cons_self w ws))]
    congr 1
    refine ih (w :: seen) (List.Nodup.of_cons hnd) ?_
    intro x hx
    simp only [List.mem_cons]
    rintro (rfl | hxs)
    · exact (List.nodup_cons.1 hnd).1 hx
    · exact hdisj x (List.mem_cons_of_mem _ hx) hxs

theorem dict_keys_of_nodup {ws : List Str} (hnd : ws.Nodup) :
    dict_keys ws = ws :=
  dict_keys_aux_of_nodup ws [] hnd (fun _ _ => List.not_mem_nil _)

theorem count_eq_one_of_nodup_mem :
    ∀ ws : List Str, ws.Nodup → ∀ w ∈ ws, List.count w ws = 1 := by
  intro ws
  induction ws with
  | nil => intro _ w hw; cases hw
  | cons x ws ih =>
    intro hnd w hw
    rcases List.mem_cons.1 hw with rfl | hw'
    · rw [List.count_cons_self,
        List.count_eq_zero.2 (List.nodup_cons.1 hnd).1]
    · have hne : w ≠ x := by
        rintro rfl
        exact (List.nodup_cons.1 hnd).1 hw'
      rw [List.count_cons_of_ne hne, ih (List.Nodup.of_cons hnd) w hw']

/-- C9 counterexample: the match is not case-insensitive in the keyword —
only the message is lowercased — so the keyword "LOVE" never matches and is
absent from the returned rows, although one message contains it as a
case-insensitive substring (`ci_contains_count` = 1, the count the claim
prescribes). -/
theorem claim_c9_counterexample :
    analyze_romance [("I love you").toList] [("LOVE").toList] = [] ∧
    ci_contains_count (("LOVE").toList) [("I love you").toList] = 1 := by
  decide

/-- C9 amended: for a duplicate-free keyword list, the counter computes,
for each keyword, the number of messages whose lowercased text contains the
keyword as written (occurrences inside one message counted once, so the
"I love you" / "love is great" scenario gives 2); matching is
case-insensitive only on the message side, and only keywords with a
positive count appear in the returned rows. -/
theorem claim_c9_message_counts (msgs ws : List Str) (w : Str)
    (hnd : ws.Nodup) (hw : w ∈ ws)
    (hpos : 0 < msgs.countP (fun m => substr_in w (lowerStr m))) :
    (w, msgs.countP (fun m => substr_in w (lowerStr m))) ∈
      analyze_romance msgs ws := by
  unfold analyze_romance
  rw [List.Perm.mem_iff (List.perm_insertionSort _ _), List.mem_filter]
  constructor
  · rw [word_counts_closed, dict_keys_of_nodup hnd]
    refine List.mem_map.2 ⟨w, hw, ?_⟩
    rw [count_eq_one_of_nodup_mem ws hnd w hw, one_mul]
  · simpa using hpos

theorem claim_c9_message_counts_witness :
    ((("love").toList, 2) ∈
      analyze_romance [("I love you").toList, ("love is great").toList]
        [("love").toList]) := by
  have h := claim_c9_message_counts
    [("I love you").toList, ("love is great").toList]
    [("love").toList] (("love").toList) (by decide) (by decide) (by decide)
  have hc : ([("I love you").toList, ("love is great").toList].countP
      (fun m => substr_in (("love").toList) (lowerStr m))) = 2 := by decide
  rw [hc] at h
  exact h

end Mellow
